import Mathlib

/-
Verification development for the hackclub/news server (Go).

The Go source is shallowly embedded: pure functions become Lean functions,
impure inputs (current time, random bytes, database query results, HTTP
request data) become explicit parameters, and the two Postgres-backed
stores are modelled as in-memory lists of rows.  Machine integers are
modelled as Nat/Int (the quantities involved - counts, offsets, unix
times - stay far away from overflow in every claim considered here);
32-bit overflow is made explicit via mod 2^32 inside the SHA-1 model.

Standard-library functions used by the server (crypto/sha1, encoding/hex,
net/url QueryEscape, strconv.Atoi, strings.*) are embedded faithfully
byte-for-byte where the claims depend on them.  HTML parsing and
serialization (goquery) are abstracted: a document is represented by its
sequence of segments, each either free text or an anchor with an href,
which is exactly the granularity at which rewriteEmailLinks operates -
the source only ever reads and replaces the href attribute of anchors in
document order.
-/

/-! ### Bytes, hex, UTF-8 (models of encoding/hex and Go string-to-byte conversion) -/

/-- Lowercase hex digit, as produced by encoding/hex. -/
def hexDigitChar (n : Nat) : Char :=
  if n < 10 then Char.ofNat (48 + n) else Char.ofNat (87 + n)

/-- hex.EncodeToString over a byte list (bytes are Nats below 256). -/
def hexEncode (bs : List Nat) : String :=
  String.mk ((bs.map fun b => [hexDigitChar (b / 16 % 16), hexDigitChar (b % 16)]).flatten)

/-- UTF-8 encoding of one character, as Go produces for []byte(string). -/
def utf8EncodeChar (c : Char) : List Nat :=
  let n := c.toNat
  if n < 128 then [n]
  else if n < 2048 then [192 + n / 64, 128 + n % 64]
  else if n < 65536 then [224 + n / 4096, 128 + n / 64 % 64, 128 + n % 64]
  else [240 + n / 262144, 128 + n / 4096 % 64, 128 + n / 64 % 64, 128 + n % 64]

/-- []byte(s) in Go: the UTF-8 bytes of the string. -/
def utf8Encode (s : String) : List Nat :=
  (s.data.map utf8EncodeChar).flatten

/-! ### SHA-1 (model of crypto/sha1.Sum) -/

/-- Truncation to a 32-bit word. -/
def w32 (n : Nat) : Nat := n % 4294967296

/-- 32-bit left rotation. -/
def rotl32 (n x : Nat) : Nat := w32 ((x <<< n) ||| (x >>> (32 - n)))

/-- Big-endian byte expansion of `n` into `k` bytes. -/
def beBytes (k n : Nat) : List Nat :=
  (List.range k).map fun i => (n >>> (8 * (k - 1 - i))) % 256

/-- SHA-1 padding: append 0x80, zero bytes, and the 64-bit big-endian bit length. -/
def sha1Pad (msg : List Nat) : List Nat :=
  let len := msg.length
  let padZeros := (119 - len % 64) % 64
  msg ++ [128] ++ List.replicate padZeros 0 ++ beBytes 8 (8 * len)

/-- Split a byte list into 64-byte blocks (fuel-based so the kernel can evaluate it;
the fuel `l.length` always suffices since every step consumes at least one byte). -/
def chunks64Fuel : Nat → List Nat → List (List Nat)
  | 0, _ => []
  | _, [] => []
  | fuel + 1, l => l.take 64 :: chunks64Fuel fuel (l.drop 64)

/-- Split a byte list into 64-byte blocks. -/
def chunks64 (l : List Nat) : List (List Nat) :=
  chunks64Fuel l.length l

/-- The 16 initial 32-bit words of a 64-byte block (big-endian). -/
def blockWords (block : List Nat) : List Nat :=
  (List.range 16).map fun i =>
    (block.getD (4 * i) 0) <<< 24 ||| (block.getD (4 * i + 1) 0) <<< 16 |||
      (block.getD (4 * i + 2) 0) <<< 8 ||| block.getD (4 * i + 3) 0

/-- Extend 16 schedule words to 80. -/
def sha1Schedule (ws : List Nat) : List Nat :=
  (List.range 64).foldl
    (fun acc i =>
      acc ++ [rotl32 1 ((acc.getD (i + 13) 0) ^^^ (acc.getD (i + 8) 0) ^^^
        (acc.getD (i + 2) 0) ^^^ (acc.getD i 0))])
    ws

/-- SHA-1 round function. -/
def sha1F (t b c d : Nat) : Nat :=
  if t < 20 then (b &&& c) ||| ((4294967295 - b) &&& d)
  else if t < 40 then b ^^^ c ^^^ d
  else if t < 60 then (b &&& c) ||| (b &&& d) ||| (c &&& d)
  else b ^^^ c ^^^ d

/-- SHA-1 round constants. -/
def sha1K (t : Nat) : Nat :=
  if t < 20 then 1518500249
  else if t < 40 then 1859775393
  else if t < 60 then 2400959708
  else 3395469782

/-- Compress one 64-byte block into the running state. -/
def sha1Compress (h : Nat × Nat × Nat × Nat × Nat) (block : List Nat) :
    Nat × Nat × Nat × Nat × Nat :=
  let ws := sha1Schedule (blockWords block)
  let s := (List.range 80).foldl
    (fun st t =>
      let temp := w32 (rotl32 5 st.1 + sha1F t st.2.1 st.2.2.1 st.2.2.2.1 +
        st.2.2.2.2 + sha1K t + ws.getD t 0)
      (temp, st.1, rotl32 30 st.2.1, st.2.2.1, st.2.2.2.1))
    h
  (w32 (h.1 + s.1), w32 (h.2.1 + s.2.1), w32 (h.2.2.1 + s.2.2.1),
    w32 (h.2.2.2.1 + s.2.2.2.1), w32 (h.2.2.2.2 + s.2.2.2.2))

/-- sha1.Sum: the 20-byte SHA-1 digest of a byte list. -/
def sha1 (msg : List Nat) : List Nat :=
  let s := (chunks64 (sha1Pad msg)).foldl sha1Compress
    (1732584193, 4023233417, 2562383102, 271733878, 3285377520)
  beBytes 4 s.1 ++ beBytes 4 s.2.1 ++ beBytes 4 s.2.2.1 ++
    beBytes 4 s.2.2.2.1 ++ beBytes 4 s.2.2.2.2

/-! ### Go string helpers (models of strings.ToLower, TrimSpace, ReplaceAll, Trim) -/

/-- strings.ToLower, restricted to ASCII case mapping (the inputs the claims
exercise are ASCII; full Unicode case folding is out of scope). -/
def asciiToLower (c : Char) : Char :=
  if 'A' ≤ c ∧ c ≤ 'Z' then Char.ofNat (c.toNat + 32) else c

/-- strings.ToLower over a string. -/
def goToLower (s : String) : String :=
  String.mk (s.data.map asciiToLower)

/-- unicode.IsSpace restricted to the ASCII space class used by TrimSpace. -/
def isGoSpace (c : Char) : Bool :=
  c = ' ' || c = Char.ofNat 9 || c = Char.ofNat 10 || c = Char.ofNat 13 ||
    c = Char.ofNat 11 || c = Char.ofNat 12

/-- strings.TrimSpace. -/
def goTrimSpace (s : String) : String :=
  String.mk (((s.data.dropWhile isGoSpace).reverse.dropWhile isGoSpace).reverse)

/-- strings.Trim with a one-character cutset. -/
def trimChar (l : List Char) (c : Char) : List Char :=
  ((l.dropWhile (· = c)).reverse.dropWhile (· = c)).reverse

/-- strings.ReplaceAll: leftmost, non-overlapping replacement (fuel-based for
kernel evaluation; fuel `s.length` suffices since every step consumes a char). -/
def replaceAllFuel (pat repl : List Char) : Nat → List Char → List Char
  | 0, s => s
  | _, [] => []
  | fuel + 1, c :: rest =>
    if pat.isPrefixOf (c :: rest) then
      repl ++ replaceAllFuel pat repl fuel ((c :: rest).drop pat.length)
    else
      c :: replaceAllFuel pat repl fuel rest

/-- strings.ReplaceAll over strings (the server only uses non-empty patterns). -/
def replaceAll (s pat repl : String) : String :=
  if pat = "" then s
  else String.mk (replaceAllFuel pat.data repl.data s.data.length s.data)

/-! ### slugify, weakETag, generateSessionID (part_000 lines 98-133) -/

/-- slugify from the source: lowercase, trim, map / to -, & and " + " to " and ",
keep [a-z0-9], map space - _ to -, trim dashes; if empty, the first 12 hex chars
(6 bytes) of the SHA-1 of the transformed string. -/
def slugify (s : String) : String :=
  let s := goToLower s
  let s := goTrimSpace s
  let s := replaceAll s "/" "-"
  let s := replaceAll s "&" " and "
  let s := replaceAll s " + " " and "
  let b := s.data.filterMap (fun r =>
    if ('a' ≤ r ∧ r ≤ 'z') ∨ ('0' ≤ r ∧ r ≤ '9') then some r
    else if r = ' ' ∨ r = '-' ∨ r = '_' then some '-'
    else none)
  let out := trimChar b '-'
  if out = [] then hexEncode ((sha1 (utf8Encode s)).take 6)
  else String.mk out

/-- weakETag: W/"<hex sha1 of payload>". -/
def weakETag (payload : List Nat) : String :=
  "W/\"" ++ hexEncode (sha1 payload) ++ "\""

/-- generateSessionID: 16 random bytes, hex-encoded.  The crypto/rand read is
modelled by passing the 16 bytes explicitly. -/
def generateSessionID (randBytes : List Nat) : String :=
  hexEncode randBytes

/-! ### net/url QueryEscape and strconv.Atoi models -/

/-- Uppercase hex digit, as used by percent-encoding. -/
def upperHexChar (n : Nat) : Char :=
  if n < 10 then Char.ofNat (48 + n) else Char.ofNat (55 + n)

/-- Is this byte kept verbatim by url.QueryEscape? (alphanumerics and - _ . ~) -/
def isUnreservedByte (b : Nat) : Bool :=
  (65 ≤ b && b ≤ 90) || (97 ≤ b && b ≤ 122) || (48 ≤ b && b ≤ 57) ||
    b = 45 || b = 46 || b = 95 || b = 126

/-- url.QueryEscape: byte-wise percent-encoding with space mapped to +. -/
def queryEscape (s : String) : String :=
  String.mk (((utf8Encode s).map fun b =>
    if isUnreservedByte b then [Char.ofNat b]
    else if b = 32 then ['+']
    else ['%', upperHexChar (b / 16 % 16), upperHexChar (b % 16)]).flatten)

/-- strconv.Atoi: optional sign then one or more digits.  (Go additionally
errors when the value overflows the machine int; the claims only quantify over
indices far inside that range, so the overflow check is not modelled.) -/
def atoi (s : String) : Option Int :=
  match s.data with
  | [] => none
  | c :: rest =>
    let signed := if c = '-' then (true, rest) else if c = '+' then (false, rest) else (false, c :: rest)
    let ds := signed.2
    if ds = [] then none
    else if ds.all Char.isDigit then
      let n : Nat := ds.foldl (fun acc d => acc * 10 + (d.toNat - 48)) 0
      some (if signed.1 then -(n : Int) else (n : Int))
    else none

/-! ### HTML document model and rewriteEmailLinks (part_000 lines 492-557)

goquery parsing and serialization are abstracted: a document is its sequence
of segments in document order, each either free text or an anchor carrying an
href and its inner HTML.  rewriteEmailLinks only reads and replaces anchor
href attributes in document order, which this model captures exactly. -/

/-- One piece of an HTML document: free text, or an anchor with an href. -/
inductive Segment where
  | text (s : String)
  | anchor (href : String) (inner : String)
deriving DecidableEq, Repr

/-- Serialization of the document model (used where the source treats the
rewritten HTML as a plain string again). -/
def docToString (doc : List Segment) : String :=
  (doc.map fun seg =>
    match seg with
    | .text s => s
    | .anchor href inner => "<a href=\"" ++ href ++ "\">" ++ inner ++ "</a>").foldl (· ++ ·) ""

/-- An HTTP request, reduced to the fields the embedded code reads.  Header.Get
returns the empty string for an absent header, so headers are plain strings.
The peer address is the parsed IPv4 of RemoteAddr (net.SplitHostPort and
net.ParseIP are abstracted). -/
structure Request where
  tls : Bool
  host : String
  remoteIP : Nat
  xForwardedProto : String
  xForwardedFor : String
  xRealIP : String
deriving DecidableEq, Repr

/-- An IPv4 CIDR block: base address and mask bits, as parsed by net.ParseCIDR. -/
structure CIDRNet where
  base : Nat
  maskBits : Nat
deriving DecidableEq, Repr

/-- net.IPNet.Contains for IPv4: the masked prefixes agree. -/
def CIDRNet.contains (n : CIDRNet) (ip : Nat) : Bool :=
  ip / 2 ^ (32 - n.maskBits) = n.base / 2 ^ (32 - n.maskBits)

/-- trustProxyRealIP (part_000 lines 1191-1210): when the immediate peer is in
no trusted CIDR, delete the X-Forwarded-For and X-Real-IP headers.  Note the
source does not touch X-Forwarded-Proto. -/
def trustProxyRealIP (trustedCIDRs : List CIDRNet) (r : Request) : Request :=
  let trusted := trustedCIDRs.any (fun n => n.contains r.remoteIP)
  if !trusted then { r with xForwardedFor := "", xRealIP := "" } else r

/-- The scheme chosen inside rewriteEmailLinks: http, https when r.TLS is set,
overridden by a non-empty X-Forwarded-Proto header value verbatim. -/
def emailLinkScheme (r : Request) : String :=
  let scheme := if r.tls then "https" else "http"
  if r.xForwardedProto ≠ "" then r.xForwardedProto else scheme

/-- The base URL built inside rewriteEmailLinks: scheme://host. -/
def emailLinkBase (r : Request) : String :=
  emailLinkScheme r ++ "://" ++ r.host

/-- strings.HasPrefix, at the character level (kernel-evaluable). -/
def goHasPfx (s pre : String) : Bool :=
  pre.data.isPrefixOf s.data

/-- Is the anchor skipped by the rewrite? (mailto:, #, tel: prefixes). -/
def isSkippedHref (href : String) : Bool :=
  goHasPfx href "mailto:" || goHasPfx href "#" || goHasPfx href "tel:"

/-- The anchor walk of rewriteEmailLinks: linkIndex counts only rewritten
anchors; a rewritten anchor's href becomes
base/emails/<id>/click/<index>?url=<query-escaped original>. -/
def rewriteAnchors (base emailID : String) (linkIndex : Nat) :
    List Segment → List Segment
  | [] => []
  | .text s :: rest => .text s :: rewriteAnchors base emailID linkIndex rest
  | .anchor href inner :: rest =>
    if isSkippedHref href then
      .anchor href inner :: rewriteAnchors base emailID linkIndex rest
    else
      .anchor (base ++ "/emails/" ++ emailID ++ "/click/" ++ toString linkIndex ++
          "?url=" ++ queryEscape href) inner ::
        rewriteAnchors base emailID (linkIndex + 1) rest

/-- rewriteEmailLinks: compute the base URL from the request and rewrite every
eligible anchor.  (The goquery parse error path returns the input unchanged
and cannot fire in the abstracted model.) -/
def rewriteEmailLinks (r : Request) (emailID : String) (doc : List Segment) :
    List Segment :=
  rewriteAnchors (emailLinkBase r) emailID 0 doc

/-- Does every segment of the document escape rewriting? -/
def segSkipped : Segment → Bool
  | .text _ => true
  | .anchor href _ => isSkippedHref href

/-! ### stripTags (part_000 lines 539-557) including the script/style regex -/

/-- Case-insensitive (ASCII) literal match; returns the remainder on success. -/
def matchCI : List Char → List Char → Option (List Char)
  | [], s => some s
  | _, [] => none
  | p :: ps, c :: cs =>
    if asciiToLower p = asciiToLower c then matchCI ps cs else none

/-- Consume [^>]* followed by a single >; none if no > remains. -/
def skipToGt : List Char → Option (List Char)
  | [] => none
  | c :: rest => if c = '>' then some rest else skipToGt rest

/-- The opener <(script|style)[^>]*> of the scriptStyleRegex. -/
def matchScriptStyleOpen (s : List Char) : Option (List Char) :=
  match matchCI "<script".data s with
  | some rest => skipToGt rest
  | none =>
    match matchCI "<style".data s with
    | some rest => skipToGt rest
    | none => none

/-- Find the earliest closer </script> or </style> (the regex accepts either)
and return the remainder after it. -/
def findScriptStyleClose : List Char → Option (List Char)
  | [] => none
  | c :: rest =>
    match matchCI "</script>".data (c :: rest) with
    | some rem => some rem
    | none =>
      match matchCI "</style>".data (c :: rest) with
      | some rem => some rem
      | none => findScriptStyleClose rest

/-- scriptStyleRegex.ReplaceAllString(s, ""): remove every non-overlapping
(?is)<(script|style)[^>]*>.*?</(script|style)> match (fuel-based; fuel
`s.length` suffices since every step consumes at least one char). -/
def removeScriptStyleFuel : Nat → List Char → List Char
  | 0, s => s
  | _, [] => []
  | fuel + 1, c :: rest =>
    match matchScriptStyleOpen (c :: rest) with
    | some afterOpen =>
      match findScriptStyleClose afterOpen with
      | some afterClose => removeScriptStyleFuel fuel afterClose
      | none => c :: removeScriptStyleFuel fuel rest
    | none => c :: removeScriptStyleFuel fuel rest

/-- The in-tag scanning loop of stripTags. -/
def stripTagsScan : List Char → Bool → List Char
  | [], _ => []
  | c :: rest, inTag =>
    if c = '<' then stripTagsScan rest true
    else if c = '>' then stripTagsScan rest false
    else if inTag then stripTagsScan rest inTag
    else c :: stripTagsScan rest inTag

/-- strings.Fields: split around runs of white space (fuel-based; fuel
`l.length` suffices since every step consumes at least one char). -/
def goFieldsFuel : Nat → List Char → List (List Char)
  | 0, _ => []
  | _, [] => []
  | fuel + 1, c :: rest =>
    if isGoSpace c then goFieldsFuel fuel rest
    else
      ((c :: rest).takeWhile (fun ch => !isGoSpace ch)) ::
        goFieldsFuel fuel ((c :: rest).dropWhile (fun ch => !isGoSpace ch))

/-- stripTags: drop script/style blocks, elide tags, collapse white space. -/
def stripTags (s : String) : String :=
  let s1 := removeScriptStyleFuel s.data.length s.data
  let s2 := stripTagsScan s1 false
  String.intercalate " " ((goFieldsFuel s2.length s2).map String.mk)

/-! ### Association-list operations (model of Go map reads/writes) -/

/-- Go map read m[k]. -/
def assocLookup {β : Type} (m : List (String × β)) (k : String) : Option β :=
  (m.find? (fun kv => kv.1 = k)).map (·.2)

/-- Go map write m[k] = v (keys stay unique: replace in place or append). -/
def assocSet {β : Type} (m : List (String × β)) (k : String) (v : β) :
    List (String × β) :=
  if m.any (fun kv => kv.1 = k) then
    m.map (fun kv => if kv.1 = k then (k, v) else kv)
  else m ++ [(k, v)]

/-- Go delete(m, k). -/
def assocDelete {β : Type} (m : List (String × β)) (k : String) :
    List (String × β) :=
  m.filter (fun kv => kv.1 ≠ k)

/-! ### TTLCache (part_000 lines 135-187)

time.Now() is passed explicitly as `now`; durations and instants are Ints
(e.g. seconds).  The Go map is an association list, and the nondeterministic
map iteration of the eviction scan is the list order. -/

/-- A cache entry: payload bytes, absolute expiry, stored ETag. -/
structure CacheItem where
  val : List Nat
  expiresAt : Int
  etag : String
deriving DecidableEq, Repr

/-- The TTL cache: store, ttl, capacity. -/
structure TTLCache where
  store : List (String × CacheItem)
  ttl : Int
  max : Nat
deriving DecidableEq, Repr

/-- NewTTLCache. -/
def NewTTLCache (ttl : Int) (max : Nat) : TTLCache :=
  { store := [], ttl := ttl, max := max }

/-- TTLCache.Get: a hit requires the key present and not time.Now().After(expiresAt),
i.e. now ≤ expiresAt. -/
def TTLCache.Get (c : TTLCache) (now : Int) (key : String) :
    Option (List Nat × String) :=
  match assocLookup c.store key with
  | none => none
  | some it => if now > it.expiresAt then none else some (it.val, it.etag)

/-- TTLCache.Set: when at capacity, scan for the entry whose expiresAt is the
running minimum starting from time.Now() (so only already-expired entries can
be selected - transcribed exactly from the source), delete it when one was
found, then insert with expiry now + ttl.  Returns the ETag and new cache. -/
def TTLCache.Set (c : TTLCache) (now : Int) (key : String) (val : List Nat) :
    String × TTLCache :=
  let store :=
    if c.store.length ≥ c.max then
      let oldest := c.store.foldl
        (fun acc kv => if kv.2.expiresAt < acc.2 then (kv.1, kv.2.expiresAt) else acc)
        ("", now)
      if oldest.1 ≠ "" then assocDelete c.store oldest.1 else c.store
    else c.store
  let etag := weakETag val
  (etag, { c with store := assocSet store key { val := val, etag := etag, expiresAt := now + c.ttl } })

/-- cacheKey: method, path and raw query. -/
def cacheKey (method path rawQuery : String) : String :=
  method ++ " " ++ path ++ "?" ++ rawQuery

/-! ### Store and the metrics database (part_000 lines 189-682)

The metrics pool is optional, mirroring METRICS_DATABASE_URL being unset.  A
configured pool carries the rows of the two hypertables plus an optional
query-error marker that makes every round trip fail with that error string
(modelling a transient database failure). -/

/-- A row of email_views. -/
structure ViewRow where
  time : Int
  sessionID : String
  emailID : String
deriving DecidableEq, Repr

/-- A row of email_link_clicks. -/
structure ClickRow where
  time : Int
  sessionID : String
  emailID : String
  linkURL : String
  linkIndex : Int
deriving DecidableEq, Repr

/-- The metrics database: both tables, plus a switch that makes queries fail. -/
structure MetricsPool where
  views : List ViewRow
  clicks : List ClickRow
  queryError : Option String
deriving DecidableEq, Repr

/-- The Store; the content pool is abstracted (its query results are passed to
the list functions as rows). -/
structure Store where
  metricsPool : Option MetricsPool
deriving DecidableEq, Repr

/-- SELECT COUNT(DISTINCT session_id) FROM email_views WHERE email_id = $1. -/
def countDistinctViewSessions (rows : List ViewRow) (emailID : String) : Int :=
  (((rows.filter (fun v => v.emailID = emailID)).map (·.sessionID)).eraseDups).length

/-- SELECT COUNT(DISTINCT (session_id, link_index)) FROM email_link_clicks
WHERE email_id = $1. -/
def countDistinctClickPairs (rows : List ClickRow) (emailID : String) : Int :=
  (((rows.filter (fun v => v.emailID = emailID)).map
    (fun v => (v.sessionID, v.linkIndex))).eraseDups).length

/-- The view-count round trip: fails when the pool is failing. -/
def viewCountQuery (p : MetricsPool) (emailID : String) : Except String Int :=
  match p.queryError with
  | some e => .error e
  | none => .ok (countDistinctViewSessions p.views emailID)

/-- The click-count round trip: fails when the pool is failing. -/
def clickCountQuery (p : MetricsPool) (emailID : String) : Except String Int :=
  match p.queryError with
  | some e => .error e
  | none => .ok (countDistinctClickPairs p.clicks emailID)

/-- Store.GetMetricsViewCount (part_000 lines 626-643): no pool gives (0, nil);
a failing Scan other than "no rows in result set" returns (0, nil); a
"no rows" error falls through with count still holding its zero value. -/
def Store.GetMetricsViewCount (s : Store) (emailID : String) : Int × Option String :=
  match s.metricsPool with
  | none => (0, none)
  | some p =>
    let count : Int := 0
    match viewCountQuery p emailID with
    | .error e =>
      if e ≠ "no rows in result set" then (0, none)
      else (count, none)
    | .ok c => (c, none)

/-- Store.GetMetricsClickCount (part_000 lines 645-662), same shape. -/
def Store.GetMetricsClickCount (s : Store) (emailID : String) : Int × Option String :=
  match s.metricsPool with
  | none => (0, none)
  | some p =>
    let count : Int := 0
    match clickCountQuery p emailID with
    | .error e =>
      if e ≠ "no rows in result set" then (0, none)
      else (count, none)
    | .ok c => (c, none)

/-- Store.TrackEmailView (part_000 lines 559-590): SELECT EXISTS a matching
row in the last 5 minutes (300 s), INSERT only when absent.  NOW() is the
explicit `now`; a failing pool surfaces the query error without inserting. -/
def Store.TrackEmailView (s : Store) (now : Int) (sessionID emailID : String) :
    Store × Option String :=
  match s.metricsPool with
  | none => (s, none)
  | some p =>
    match p.queryError with
    | some e => (s, some e)
    | none =>
      let found := p.views.any (fun v =>
        v.sessionID == sessionID && v.emailID == emailID && decide (now - 300 < v.time))
      if !found then
        let row : ViewRow := { time := now, sessionID := sessionID, emailID := emailID }
        ({ metricsPool := some { p with views := p.views ++ [row] } }, none)
      else (s, none)

/-- Store.TrackLinkClick (part_000 lines 592-624), same shape with link_index. -/
def Store.TrackLinkClick (s : Store) (now : Int) (sessionID emailID linkURL : String)
    (linkIndex : Int) : Store × Option String :=
  match s.metricsPool with
  | none => (s, none)
  | some p =>
    match p.queryError with
    | some e => (s, some e)
    | none =>
      let found := p.clicks.any (fun v =>
        v.sessionID == sessionID && v.emailID == emailID &&
          v.linkIndex == linkIndex && decide (now - 300 < v.time))
      if !found then
        let row : ClickRow :=
          { time := now, sessionID := sessionID, emailID := emailID,
            linkURL := linkURL, linkIndex := linkIndex }
        ({ metricsPool := some { p with clicks := p.clicks ++ [row] } }, none)
      else (s, none)

/-- Number of email_views rows held by the store (0 when no metrics pool). -/
def viewsLen (s : Store) : Nat :=
  match s.metricsPool with
  | none => 0
  | some p => p.views.length

/-! ### ClickTracker (part_000 lines 732-790); times in milliseconds -/

/-- Per-IP last recorded click times. -/
structure ClickTracker where
  clicks : List (String × Int)
deriving DecidableEq, Repr

/-- ClickTracker.ShouldTrack: record (and update the stamp) iff the IP is new
or its previous recorded click is more than 100 ms old. -/
def ClickTracker.ShouldTrack (ct : ClickTracker) (now : Int) (ip : String) :
    Bool × ClickTracker :=
  match assocLookup ct.clicks ip with
  | none => (true, { clicks := assocSet ct.clicks ip now })
  | some lastClick =>
    if now - lastClick > 100 then (true, { clicks := assocSet ct.clicks ip now })
    else (false, ct)

/-! ### Session cookie (part_000 lines 893-909) -/

/-- The cookie attributes the handler sets. -/
structure Cookie where
  name : String
  value : String
  maxAge : Int
  httpOnly : Bool
  sameSiteLax : Bool
  secure : Bool
  path : String
deriving DecidableEq, Repr

/-- getOrCreateSession: an existing _track cookie is returned verbatim with no
Set-Cookie; otherwise a fresh id is minted from 16 random bytes and a cookie
with the fixed attributes is added to the response. -/
def getOrCreateSession (tls : Bool) (reqCookie : Option String)
    (randBytes : List Nat) : String × Option Cookie :=
  match reqCookie with
  | some v => (v, none)
  | none =>
    let sessionID := generateSessionID randBytes
    let cookie : Cookie :=
      { name := "_track", value := sessionID, maxAge := 30 * 24 * 60 * 60,
        httpOnly := true, sameSiteLax := true, secure := tls, path := "/" }
    (sessionID, some cookie)

/-! ### handleLinkClick (part_000 lines 937-969) -/

/-- The response fields the click handler produces. -/
structure HttpResponse where
  status : Nat
  location : Option String
  setCookie : Option Cookie
deriving DecidableEq, Repr

/-- handleLinkClick: 400 on a missing parameter or unparsable index; otherwise
assign the session, ask the ClickTracker, persist best-effort when allowed,
and always respond 302 with Location set to the url parameter.  (Notify only
wakes stream subscribers and does not touch the response.) -/
def handleLinkClick (ct : ClickTracker) (s : Store) (now : Int)
    (emailID linkIndexStr targetURL remoteAddr : String)
    (reqCookie : Option String) (randBytes : List Nat) (tls : Bool) :
    HttpResponse × ClickTracker × Store :=
  if emailID = "" ∨ linkIndexStr = "" ∨ targetURL = "" then
    ({ status := 400, location := none, setCookie := none }, ct, s)
  else
    match atoi linkIndexStr with
    | none => ({ status := 400, location := none, setCookie := none }, ct, s)
    | some linkIndex =>
      let session := getOrCreateSession tls reqCookie randBytes
      let tracked := ClickTracker.ShouldTrack ct now remoteAddr
      let s' :=
        if tracked.1 then
          (Store.TrackLinkClick s now session.1 emailID targetURL linkIndex).1
        else s
      ({ status := 302, location := some targetURL, setCookie := session.2 },
        tracked.2, s')

/-! ### List endpoints (part_000 lines 308-490)

The SQL round trips are abstracted as the row lists they return; the WHERE,
ORDER BY, LIMIT and OFFSET clauses execute inside the database, so the rows
handed to these functions are already filtered, ordered and capped.  The
per-row Go post-processing is transcribed below.  Byte-length string slicing
(preview[:200]) is modelled as character-level take, which agrees on ASCII. -/

/-- The JSON ListRef shape. -/
structure ListRef where
  id : String
  slug : String
  name : String
  description : String
  color : String
deriving DecidableEq, Repr

/-- The JSON EmailStats shape. -/
structure EmailStats where
  clicks : Int
  views : Int
deriving DecidableEq, Repr

/-- The JSON Email shape (html carries the abstracted document). -/
structure Email where
  id : String
  slug : String
  subject : String
  excerpt : Option String
  sentAt : Option Int
  mailingListID : String
  mailingListRef : ListRef
  stats : EmailStats
  html : Option (List Segment)
  markdown : Option String
  previewText : Option String
deriving DecidableEq, Repr

/-- The JSON MailingList shape. -/
structure MailingList where
  id : String
  slug : String
  name : String
  description : String
  color : String
  isPublic : Bool
  subscriberCount : Int
  lastUpdatedAt : Option Int
  lastSentAt : Option Int
  sentEmailCount : Int
deriving DecidableEq, Repr

/-- One row scanned by ListMailingLists (after the SQL COALESCEs). -/
structure MailingListRow where
  id : String
  friendlyName : String
  description : String
  isPublic : Bool
  colorScheme : String
  lastUpdatedAt : Option Int
  subscriberCount : Int
  sentEmailCount : Int
  lastSentAt : Option Int
deriving DecidableEq, Repr

/-- One row scanned by ListEmails (after the SQL COALESCEs). -/
structure CampaignRow where
  id : String
  title : String
  sentAt : Option Int
  mailingListID : String
  mlName : String
  mlDesc : String
  mlColor : String
  clicks : Int
  opens : Int
  html : Option (List Segment)
  markdown : Option String
  aiSlug : Option String
  excerpt : Option String
deriving DecidableEq, Repr

/-- The per-row body of the ListEmails scan loop (part_000 lines 414-482). -/
def buildEmail (s : Store) (r : Request) (row : CampaignRow) : Email :=
  let mlRef : ListRef :=
    { id := row.mailingListID, slug := slugify row.mlName, name := row.mlName,
      description := row.mlDesc, color := row.mlColor }
  let metricsViews := (Store.GetMetricsViewCount s row.id).1
  let metricsClicks := (Store.GetMetricsClickCount s row.id).1
  let stats : EmailStats :=
    { clicks := row.clicks + metricsClicks, views := row.opens + metricsViews }
  let html : Option (List Segment) :=
    match row.html with
    | some d => if docToString d ≠ "" then some (rewriteEmailLinks r row.id d) else some d
    | none => none
  let slug :=
    if row.aiSlug.getD "" ≠ "" then row.aiSlug.getD ""
    else
      let sg := slugify row.title
      if sg = "" then row.id else sg
  let previewText : Option String :=
    if row.markdown.getD "" ≠ "" then
      let preview := goTrimSpace (row.markdown.getD "")
      some (if preview.length > 200 then preview.take 200 else preview)
    else
      match html with
      | some d =>
        if docToString d ≠ "" then
          let preview := stripTags (docToString d)
          some (if preview.length > 200 then preview.take 200 else preview)
        else none
      | none => none
  { id := row.id, slug := slug, subject := row.title, excerpt := row.excerpt,
    sentAt := row.sentAt, mailingListID := row.mailingListID,
    mailingListRef := mlRef, stats := stats, html := html,
    markdown := row.markdown, previewText := previewText }

/-- Store.ListEmails (part_000 lines 375-490): map the scanned rows through the
loop body, then next_offset = offset + limit iff the page is full.  The
mailingListID filter sits inside the SQL and so inside `rows`. -/
def Store.ListEmails (s : Store) (r : Request) (mailingListID : Option String)
    (rows : List CampaignRow) (limit offset : Nat) : List Email × Option Nat :=
  let _ := mailingListID
  let out := rows.map (buildEmail s r)
  let next := if out.length = limit then some (offset + limit) else none
  (out, next)

/-- Store.ListMailingLists (part_000 lines 308-373): map the scanned rows to
the JSON shape (slug derived from the friendly name), same next_offset rule. -/
def Store.ListMailingLists (rows : List MailingListRow) (limit offset : Nat) :
    List MailingList × Option Nat :=
  let out := rows.map (fun row =>
    { id := row.id, slug := slugify row.friendlyName, name := row.friendlyName,
      description := row.description, color := row.colorScheme,
      isPublic := row.isPublic, lastUpdatedAt := row.lastUpdatedAt,
      lastSentAt := row.lastSentAt, subscriberCount := row.subscriberCount,
      sentEmailCount := row.sentEmailCount : MailingList })
  let next := if out.length = limit then some (offset + limit) else none
  (out, next)

/-! ### Derived predicates and concrete values used by the claim theorems -/

/-- A plain non-TLS request with no forwarded headers. -/
def reqPlain : Request :=
  { tls := false, host := "h", remoteIP := 0, xForwardedProto := "",
    xForwardedFor := "", xRealIP := "" }

/-- A non-TLS request whose peer 203.0.113.5 is outside the trusted CIDRs but
which carries an attacker-supplied X-Forwarded-Proto header. -/
def reqUntrustedProto : Request :=
  { tls := false, host := "example.com", remoteIP := 3405803781,
    xForwardedProto := "https", xForwardedFor := "203.0.113.5", xRealIP := "" }

/-- A tiny cache at capacity two with both entries unexpired at now = 0. -/
def c3w : TTLCache :=
  { store := [("k1", { val := [], expiresAt := 10, etag := "" }),
      ("k2", { val := [], expiresAt := 20, etag := "" })],
    ttl := 30, max := 2 }

/-- A store with no metrics database configured. -/
def storeNoMetrics : Store := { metricsPool := none }

/-- A store with an empty, healthy metrics database. -/
def storeEmptyMetrics : Store :=
  { metricsPool := some { views := [], clicks := [], queryError := none } }

/-- A store whose metrics database fails every query. -/
def storeFailingMetrics : Store :=
  { metricsPool := some { views := [], clicks := [], queryError := some "boom" } }

/-- A minimal eligible campaign row. -/
def c7row : CampaignRow :=
  { id := "E1", title := "a", sentAt := none, mailingListID := "M",
    mlName := "n", mlDesc := "", mlColor := "#000000", clicks := 0, opens := 0,
    html := none, markdown := none, aiSlug := none, excerpt := none }

/-- Is this character a lowercase hex digit (0-9, a-f)? -/
def isLowerHexDigit (c : Char) : Bool :=
  (48 ≤ c.toNat && c.toNat ≤ 57) || (97 ≤ c.toNat && c.toNat ≤ 102)

/-- The cache invariant of C8: every stored entry's etag is the weak ETag of
its stored bytes. -/
def EtagInv (c : TTLCache) : Prop :=
  ∀ kv ∈ c.store, kv.2.etag = weakETag kv.2.val

/-- The expiry of the entry under a key, with a fallback for an absent key. -/
def itemExpiry (c : TTLCache) (key : String) (dflt : Int) : Int :=
  ((assocLookup c.store key).map (fun it => it.expiresAt)).getD dflt

/-- A one-entry cache written by Set at time 60 with ttl 30. -/
def c8w : TTLCache := (TTLCache.Set (NewTTLCache 30 2) 60 "k" [1]).2


/-! ### Claim theorems -/

set_option maxRecDepth 8000

/-- C1 counterexample: rewriting is not idempotent.  One eligible anchor
https://a is rewritten to a tracking URL; a second run does not recognise the
tracking URL as its own output and wraps it again, so the second output
differs from the first. -/
theorem c1_rewrite_not_idempotent_cex :
    rewriteEmailLinks reqPlain "E1"
        (rewriteEmailLinks reqPlain "E1" [Segment.anchor "https://a" "x"]) ≠
      rewriteEmailLinks reqPlain "E1" [Segment.anchor "https://a" "x"] := by
  decide

/-- Auxiliary for C1: the anchor walk is the identity on documents whose
segments are all skipped, at every starting index. -/
theorem rewriteAnchors_eq_self_of_skipped (b e : String) (doc : List Segment)
    (h : ∀ s ∈ doc, segSkipped s = true) :
    ∀ idx, rewriteAnchors b e idx doc = doc := by
  induction doc with
  | nil => intro idx; rfl
  | cons hd tl ih =>
    intro idx
    have htl := fun x hx => h x (List.mem_cons_of_mem _ hx)
    cases hd with
    | text s =>
      simp only [rewriteAnchors]
      rw [ih htl idx]
    | anchor href inner =>
      have hs : isSkippedHref href = true := by
        simpa [segSkipped] using h (.anchor href inner) (List.mem_cons_self _ _)
      simp only [rewriteAnchors, hs, if_pos]
      rw [ih htl idx]

/-- C1 (amended): the rewrite is idempotent exactly in the absence of eligible
anchors - on a document all of whose anchors start with mailto:, tel: or #
one pass is the identity and re-running yields identical output; with any
eligible anchor present the second run wraps the tracking URL again
(see the counterexample). -/
theorem c1_rewrite_idempotent_on_skipped (r : Request) (e : String)
    (doc : List Segment) (h : ∀ s ∈ doc, segSkipped s = true) :
    rewriteEmailLinks r e (rewriteEmailLinks r e doc) = rewriteEmailLinks r e doc := by
  unfold rewriteEmailLinks
  rw [rewriteAnchors_eq_self_of_skipped _ _ doc h 0]
  exact rewriteAnchors_eq_self_of_skipped _ _ doc h 0

/-- Witness for C1 (amended) at a concrete skip-only document. -/
theorem c1_rewrite_idempotent_on_skipped_witness :
    ([Segment.anchor "mailto:z@z" "y", Segment.text "t",
        Segment.anchor "#top" "u", Segment.anchor "tel:1" "v"].all segSkipped = true)
    ∧ rewriteEmailLinks reqPlain "E1"
        (rewriteEmailLinks reqPlain "E1"
          [Segment.anchor "mailto:z@z" "y", Segment.text "t",
            Segment.anchor "#top" "u", Segment.anchor "tel:1" "v"]) =
      rewriteEmailLinks reqPlain "E1"
        [Segment.anchor "mailto:z@z" "y", Segment.text "t",
          Segment.anchor "#top" "u", Segment.anchor "tel:1" "v"] :=
  ⟨by decide,
    c1_rewrite_idempotent_on_skipped reqPlain "E1"
      [Segment.anchor "mailto:z@z" "y", Segment.text "t",
        Segment.anchor "#top" "u", Segment.anchor "tel:1" "v"] (by decide)⟩

/-- C2 (code bug): with trusted proxies limited to 10.0.0.0/8, a request from
the untrusted peer 203.0.113.5 still steers the link scheme: the middleware
strips only X-Forwarded-For and X-Real-IP, X-Forwarded-Proto survives, and
rewriteEmailLinks uses it verbatim, producing https links on a plain-HTTP
connection; without the header the same request yields http. -/
theorem c2_untrusted_forwarded_proto_bug :
    (([⟨167772160, 8⟩] : List CIDRNet).any
        (fun n => n.contains reqUntrustedProto.remoteIP) = false)
    ∧ reqUntrustedProto.tls = false
    ∧ emailLinkScheme (trustProxyRealIP [⟨167772160, 8⟩] reqUntrustedProto) = "https"
    ∧ rewriteEmailLinks (trustProxyRealIP [⟨167772160, 8⟩] reqUntrustedProto) "E1"
        [Segment.anchor "https://a" "x"] =
      [Segment.anchor "https://example.com/emails/E1/click/0?url=https%3A%2F%2Fa" "x"]
    ∧ emailLinkScheme (trustProxyRealIP [⟨167772160, 8⟩]
        { reqUntrustedProto with xForwardedProto := "" }) = "http" := by
  decide

/-- Auxiliary for C3: the eviction scan of TTLCache.Set starts its minimum
search at now, so over entries none of which has already expired it never
moves off the empty-key initial accumulator. -/
theorem evictScan_unexpired (now : Int) (l : List (String × CacheItem))
    (hl : ∀ kv ∈ l, now ≤ kv.2.expiresAt) :
    l.foldl (fun acc kv => if kv.2.expiresAt < acc.2 then (kv.1, kv.2.expiresAt) else acc)
      ("", now) = ("", now) := by
  induction l with
  | nil => rfl
  | cons hd tl ih =>
    have hhd := hl hd (List.mem_cons_self _ _)
    simp only [List.foldl_cons]
    rw [if_neg (by omega)]
    exact ih (fun kv hkv => hl kv (List.mem_cons_of_mem _ hkv))

/-- C3 (code bug): on any cache already at capacity whose entries are all
unexpired (the invariable situation for a 30 s-TTL cache under load - e.g.
the server cache NewTTLCache(30 s, 512) holding 512 fresh entries), Set of a
new key evicts nothing: the eviction scan only ever selects entries whose
expires_at is strictly before time.Now(), so the store grows to length + 1
and exceeds the capacity, contradicting the claimed evict-earliest policy. -/
theorem c3_capacity_eviction_bug (c : TTLCache) (now : Int) (key : String)
    (val : List Nat) (hfull : c.store.length ≥ c.max)
    (hunexpired : ∀ kv ∈ c.store, now ≤ kv.2.expiresAt)
    (hfresh : c.store.any (fun kv => kv.1 = key) = false) :
    (TTLCache.Set c now key val).2.store.length = c.store.length + 1
    ∧ c.max < (TTLCache.Set c now key val).2.store.length := by
  have hset : (TTLCache.Set c now key val).2.store =
      c.store ++ [(key, { val := val, etag := weakETag val, expiresAt := now + c.ttl })] := by
    unfold TTLCache.Set
    simp only [if_pos hfull]
    rw [evictScan_unexpired now c.store hunexpired]
    simp only [ne_eq, not_true_eq_false, if_false]
    unfold assocSet
    rw [if_neg (by simp [hfresh])]
  rw [hset]
  simp only [List.length_append, List.length_cons, List.length_nil]
  exact ⟨by simp, by omega⟩

/-- Witness for C3 at the concrete full cache c3w. -/
theorem c3_capacity_eviction_bug_witness :
    c3w.store.length ≥ c3w.max
    ∧ ((TTLCache.Set c3w 0 "newkey" []).2.store.length = c3w.store.length + 1
      ∧ c3w.max < (TTLCache.Set c3w 0 "newkey" []).2.store.length) :=
  ⟨by decide,
    c3_capacity_eviction_bug c3w 0 "newkey" [] (by decide) (by decide) (by decide)⟩

/-- C4 counterexample: the spec example slug(" Foo & Bar/baz ") = "foo-and-bar-baz"
fails - the & substitution introduces double spaces and adjacent dashes are
preserved, not collapsed. -/
theorem c4_slugify_example_cex :
    slugify " Foo & Bar/baz " ≠ "foo-and-bar-baz" := by
  decide

/-- C4 (amended): slugify is deterministic; the example input yields
"foo--and--bar-baz" (adjacent dashes preserved per the general rule); and
slugify "!!!" is the first 12 hex characters of the SHA-1 of "!!!"
lowercased-trimmed. -/
theorem c4_slugify_amended :
    (∀ s : String, slugify s = slugify s)
    ∧ slugify " Foo & Bar/baz " = "foo--and--bar-baz"
    ∧ slugify "!!!" =
        (hexEncode (sha1 (utf8Encode (goTrimSpace (goToLower "!!!"))))).take 12 :=
  ⟨fun _ => rfl, by decide, by decide⟩

/-- C5: whenever the click parameters parse (non-empty id, index and url, and
an integer-parsable index), the click handler responds 302 with Location equal
to the url parameter - for every rate-limiter state and every metrics-store
state, so both when the click is recorded and when recording is refused or
the persist fails. -/
theorem c5_click_redirect_always (ct : ClickTracker) (s : Store) (now : Int)
    (emailID linkIndexStr targetURL remoteAddr : String)
    (reqCookie : Option String) (randBytes : List Nat) (tls : Bool)
    (h1 : emailID ≠ "") (h2 : linkIndexStr ≠ "") (h3 : targetURL ≠ "")
    (h4 : (atoi linkIndexStr).isSome = true) :
    (handleLinkClick ct s now emailID linkIndexStr targetURL remoteAddr
      reqCookie randBytes tls).1.status = 302
    ∧ (handleLinkClick ct s now emailID linkIndexStr targetURL remoteAddr
        reqCookie randBytes tls).1.location = some targetURL := by
  obtain ⟨idx, hidx⟩ := Option.isSome_iff_exists.mp h4
  unfold handleLinkClick
  rw [if_neg (by simp [h1, h2, h3])]
  rw [hidx]
  exact ⟨rfl, rfl⟩

/-- Witness for C5 at a concrete parsable request, cookieless client, empty
rate-limiter state, and no metrics database. -/
theorem c5_click_redirect_always_witness :
    ("E1" ≠ "" ∧ "0" ≠ "" ∧ "https://example.com" ≠ ""
      ∧ (atoi "0").isSome = true)
    ∧ (handleLinkClick { clicks := [] } storeNoMetrics 0 "E1" "0"
        "https://example.com" "1.2.3.4:9" none [] false).1.status = 302
    ∧ (handleLinkClick { clicks := [] } storeNoMetrics 0 "E1" "0"
        "https://example.com" "1.2.3.4:9" none [] false).1.location =
      some "https://example.com" :=
  ⟨⟨by decide, by decide, by decide, by decide⟩,
    (c5_click_redirect_always { clicks := [] } storeNoMetrics 0 "E1" "0"
      "https://example.com" "1.2.3.4:9" none [] false
      (by decide) (by decide) (by decide) (by decide)).1,
    (c5_click_redirect_always { clicks := [] } storeNoMetrics 0 "E1" "0"
      "https://example.com" "1.2.3.4:9" none [] false
      (by decide) (by decide) (by decide) (by decide)).2⟩

/-- Auxiliary for C6: a single TrackEmailView call inserts at most one row. -/
theorem trackView_len_le (s : Store) (now : Int) (sid eid : String) :
    viewsLen (Store.TrackEmailView s now sid eid).1 ≤ viewsLen s + 1 := by
  obtain ⟨mp⟩ := s
  cases mp with
  | none => simp [Store.TrackEmailView, viewsLen]
  | some p =>
    cases hq : p.queryError with
    | some e => simp [Store.TrackEmailView, hq, viewsLen]
    | none =>
      by_cases hf : (p.views.any fun v =>
          v.sessionID == sid && v.emailID == eid && decide (now - 300 < v.time)) = true
      · simp [Store.TrackEmailView, hq, hf, viewsLen]
      · simp [Store.TrackEmailView, hq, hf, viewsLen]

/-- C6: two sequential TrackEmailView calls for the same session and email
whose times lie within one rolling 5-minute window (300 s) insert at most one
email_views row in total: when the first call inserts, the second finds that
row inside the window and does not insert. -/
theorem c6_track_view_dedup (s : Store) (sid eid : String) (t1 t2 : Int)
    (h1 : t1 ≤ t2) (h2 : t2 - t1 < 300) :
    viewsLen (Store.TrackEmailView (Store.TrackEmailView s t1 sid eid).1 t2 sid eid).1
      ≤ viewsLen s + 1 := by
  obtain ⟨mp⟩ := s
  cases mp with
  | none => simp [Store.TrackEmailView, viewsLen]
  | some p =>
    cases hq : p.queryError with
    | some e => simp [Store.TrackEmailView, hq, viewsLen]
    | none =>
      by_cases hf : (p.views.any fun v =>
          v.sessionID == sid && v.emailID == eid && decide (t1 - 300 < v.time)) = true
      · have hfirst : (Store.TrackEmailView ⟨some p⟩ t1 sid eid).1 = ⟨some p⟩ := by
          simp [Store.TrackEmailView, hq, hf]
        rw [hfirst]
        exact trackView_len_le ⟨some p⟩ t2 sid eid
      · have hfirst : (Store.TrackEmailView ⟨some p⟩ t1 sid eid).1 =
            ⟨some { p with
              views := p.views ++ [({ time := t1, sessionID := sid, emailID := eid } : ViewRow)] }⟩ := by
          simp [Store.TrackEmailView, hq, hf]
        rw [hfirst]
        have hfound2 : ((p.views ++ [({ time := t1, sessionID := sid, emailID := eid } : ViewRow)]).any
            fun v => v.sessionID == sid && v.emailID == eid && decide (t2 - 300 < v.time)) = true := by
          rw [List.any_append]
          have hrow : (([({ time := t1, sessionID := sid, emailID := eid } : ViewRow)]).any
              fun v => v.sessionID == sid && v.emailID == eid && decide (t2 - 300 < v.time)) = true := by
            simp
            omega
          rw [hrow, Bool.or_true]
        simp [Store.TrackEmailView, hq, hfound2, viewsLen]

/-- Witness for C6: two calls 10 s apart on an empty healthy metrics store. -/
theorem c6_track_view_dedup_witness :
    ((0 : Int) ≤ 10 ∧ (10 : Int) - 0 < 300)
    ∧ viewsLen (Store.TrackEmailView
        (Store.TrackEmailView storeEmptyMetrics 0 "s" "e").1 10 "s" "e").1
      ≤ viewsLen storeEmptyMetrics + 1 :=
  ⟨by constructor <;> decide,
    c6_track_view_dedup storeEmptyMetrics "s" "e" 0 10 (by decide) (by decide)⟩

/-- C7: for both ListEmails and ListMailingLists (on any rows the database
returns), next_offset is present and equals offset + limit exactly when the
returned items fill the requested limit; otherwise it is absent. -/
theorem c7_pagination_contract (s : Store) (r : Request) (mlid : Option String)
    (rows : List CampaignRow) (lrows : List MailingListRow) (limit offset : Nat) :
    (((Store.ListEmails s r mlid rows limit offset).2 = some (offset + limit) ↔
        (Store.ListEmails s r mlid rows limit offset).1.length = limit)
      ∧ ((Store.ListEmails s r mlid rows limit offset).1.length ≠ limit →
          (Store.ListEmails s r mlid rows limit offset).2 = none))
    ∧ (((Store.ListMailingLists lrows limit offset).2 = some (offset + limit) ↔
        (Store.ListMailingLists lrows limit offset).1.length = limit)
      ∧ ((Store.ListMailingLists lrows limit offset).1.length ≠ limit →
          (Store.ListMailingLists lrows limit offset).2 = none)) := by
  constructor
  · by_cases h : rows.length = limit <;>
      simp [Store.ListEmails, List.length_map, h]
  · by_cases h : lrows.length = limit <;>
      simp [Store.ListMailingLists, List.length_map, h]

/-- Witness for C7: a two-row page with limit 2 carries next_offset = 2. -/
theorem c7_pagination_contract_witness :
    (Store.ListEmails storeNoMetrics reqPlain none [c7row, c7row] 2 0).1.length = 2
    ∧ (Store.ListEmails storeNoMetrics reqPlain none [c7row, c7row] 2 0).2 = some 2 :=
  ⟨by simp [Store.ListEmails],
    (c7_pagination_contract storeNoMetrics reqPlain none [c7row, c7row] [] 2 0).1.1.mpr
      (by simp [Store.ListEmails])⟩

/-- C9: the metrics read methods never surface an error: without a metrics
pool they return (0, nil), and on a failing query they degrade to a zero
count with nil error. -/
theorem c9_metrics_reads_never_error (s : Store) (emailID : String) :
    ((Store.GetMetricsViewCount s emailID).2 = none
      ∧ (Store.GetMetricsClickCount s emailID).2 = none)
    ∧ (s.metricsPool = none →
        Store.GetMetricsViewCount s emailID = (0, none)
          ∧ Store.GetMetricsClickCount s emailID = (0, none))
    ∧ (∀ p e, s.metricsPool = some p → p.queryError = some e →
        (Store.GetMetricsViewCount s emailID).1 = 0
          ∧ (Store.GetMetricsClickCount s emailID).1 = 0) := by
  obtain ⟨mp⟩ := s
  cases mp with
  | none => simp [Store.GetMetricsViewCount, Store.GetMetricsClickCount]
  | some p =>
    cases hq : p.queryError with
    | some e =>
      have hv : Store.GetMetricsViewCount ⟨some p⟩ emailID = (0, none) := by
        simp only [Store.GetMetricsViewCount, viewCountQuery, hq]
        split <;> rfl
      have hc : Store.GetMetricsClickCount ⟨some p⟩ emailID = (0, none) := by
        simp only [Store.GetMetricsClickCount, clickCountQuery, hq]
        split <;> rfl
      refine ⟨⟨by rw [hv], by rw [hc]⟩, by simp, ?_⟩
      intro p' e' hp he
      exact ⟨by rw [hv], by rw [hc]⟩
    | none =>
      refine ⟨⟨?_, ?_⟩, by simp, ?_⟩
      · simp [Store.GetMetricsViewCount, viewCountQuery, hq]
      · simp [Store.GetMetricsClickCount, clickCountQuery, hq]
      · intro p' e' hp he
        obtain rfl : p = p' := Option.some.inj hp
        rw [hq] at he
        exact absurd he (by simp)

/-- Witness for C9: a store without metrics and a store whose metrics queries
fail, at a concrete email id. -/
theorem c9_metrics_reads_never_error_witness :
    Store.GetMetricsViewCount storeNoMetrics "e" = (0, none)
    ∧ Store.GetMetricsClickCount storeNoMetrics "e" = (0, none)
    ∧ (Store.GetMetricsViewCount storeFailingMetrics "e").1 = 0
    ∧ (Store.GetMetricsClickCount storeFailingMetrics "e").1 = 0 :=
  ⟨((c9_metrics_reads_never_error storeNoMetrics "e").2.1 rfl).1,
    ((c9_metrics_reads_never_error storeNoMetrics "e").2.1 rfl).2,
    ((c9_metrics_reads_never_error storeFailingMetrics "e").2.2
      { views := [], clicks := [], queryError := some "boom" } "boom" rfl rfl).1,
    ((c9_metrics_reads_never_error storeFailingMetrics "e").2.2
      { views := [], clicks := [], queryError := some "boom" } "boom" rfl rfl).2⟩

/-- Auxiliary for C10: the character list behind hexEncode has twice the
number of bytes. -/
theorem hexPairs_length (bs : List Nat) :
    ((bs.map fun b => [hexDigitChar (b / 16 % 16), hexDigitChar (b % 16)]).flatten).length
      = 2 * bs.length := by
  induction bs with
  | nil => rfl
  | cons b tl ih =>
    simp only [List.map_cons, List.flatten_cons, List.length_append, ih,
      List.length_cons, List.length_nil]
    omega

/-- Auxiliary for C10: hexEncode yields a string of twice the byte count. -/
theorem hexEncode_length (bs : List Nat) : (hexEncode bs).length = 2 * bs.length :=
  hexPairs_length bs

/-- Auxiliary for C10: hex digits of nibbles are lowercase hex characters. -/
theorem hexDigitChar_isHex (n : Nat) (h : n < 16) :
    isLowerHexDigit (hexDigitChar n) = true := by
  interval_cases n <;> decide

/-- C10: a request that carries a _track cookie gets its value back verbatim -
whatever its length or characters - and no Set-Cookie is added; only a
cookieless request mints a fresh 32-character lowercase-hex id and sets the
cookie with the fixed attributes (Secure iff TLS, Max-Age 2592000, Path /). -/
theorem c10_session_cookie_behavior (tls : Bool) (v : String) (randBytes : List Nat)
    (hlen : randBytes.length = 16) (hbytes : ∀ b ∈ randBytes, b < 256) :
    getOrCreateSession tls (some v) randBytes = (v, none)
    ∧ (getOrCreateSession tls none randBytes).1.length = 32
    ∧ (getOrCreateSession tls none randBytes).1.data.all isLowerHexDigit = true
    ∧ (getOrCreateSession tls none randBytes).2 =
        some { name := "_track",
               value := (getOrCreateSession tls none randBytes).1,
               maxAge := 2592000, httpOnly := true, sameSiteLax := true,
               secure := tls, path := "/" } := by
  refine ⟨rfl, ?_, ?_, ?_⟩
  · show (generateSessionID randBytes).length = 32
    unfold generateSessionID
    rw [hexEncode_length, hlen]
  · show (hexEncode randBytes).data.all isLowerHexDigit = true
    rw [List.all_eq_true]
    intro c hc
    have hc' : c ∈ (randBytes.map fun b =>
        [hexDigitChar (b / 16 % 16), hexDigitChar (b % 16)]).flatten := hc
    rcases List.mem_flatten.mp hc' with ⟨l, hl, hcl⟩
    rcases List.mem_map.mp hl with ⟨b, hb, rfl⟩
    simp only [List.mem_cons, List.not_mem_nil, or_false] at hcl
    rcases hcl with rfl | rfl
    · exact hexDigitChar_isHex _ (by omega)
    · exact hexDigitChar_isHex _ (by omega)
  · rfl

/-- Witness for C10 at 16 concrete random bytes and a concrete cookie value. -/
theorem c10_session_cookie_behavior_witness :
    (List.range 16).length = 16
    ∧ getOrCreateSession true (some "abc") (List.range 16) = ("abc", none)
    ∧ (getOrCreateSession true none (List.range 16)).1.length = 32 :=
  ⟨by decide,
    (c10_session_cookie_behavior true "abc" (List.range 16)
      (by decide) (by decide)).1,
    (c10_session_cookie_behavior true "abc" (List.range 16)
      (by decide) (by decide)).2.1⟩

/-- Auxiliary for C8: a member of an assocSet result is the written pair or an
original member. -/
theorem mem_assocSet {β : Type} {m : List (String × β)} {k : String} {v : β}
    {kv : String × β} (h : kv ∈ assocSet m k v) : kv = (k, v) ∨ kv ∈ m := by
  unfold assocSet at h
  split at h
  · rcases List.mem_map.mp h with ⟨y, hy, hmap⟩
    by_cases hk : y.1 = k
    · rw [if_pos hk] at hmap
      exact Or.inl hmap.symm
    · rw [if_neg hk] at hmap
      exact Or.inr (hmap ▸ hy)
  · rcases List.mem_append.mp h with h' | h'
    · exact Or.inr h'
    · exact Or.inl (by simpa using h')

/-- Auxiliary for C8: deletion only removes entries. -/
theorem mem_assocDelete {β : Type} {m : List (String × β)} {k : String}
    {kv : String × β} (h : kv ∈ assocDelete m k) : kv ∈ m :=
  (List.mem_filter.mp h).1

/-- C8 counterexample: an entry written at time 70 with ttl 30 expires at 100,
and Get still hits at now = 100 - the source only rejects once time.Now() is
strictly After the expiry, so "present only while now is before expires_at"
fails at the boundary instant now = expires_at. -/
theorem c8_get_at_expiry_cex :
    ((TTLCache.Set (NewTTLCache 30 512) 70 "k" [1, 2, 3]).2.Get 100 "k").isSome = true
    ∧ itemExpiry (TTLCache.Set (NewTTLCache 30 512) 70 "k" [1, 2, 3]).2 "k" 0 = 100
    ∧ ¬ ((100 : Int) < 100) := by
  refine ⟨by decide, by decide, by omega⟩

/-- C8 (amended): a Get hit requires now ≤ expires_at (hits occur at the
boundary now = expires_at as well, see the counterexample), and on every hit
the returned etag is the weak ETag of the returned bytes - an invariant that
holds of every cache whose entries were written by Set and is preserved by
every further Set (Get does not mutate the cache). -/
theorem c8_cache_etag_invariant (c : TTLCache) (now : Int) (key : String)
    (hinv : EtagInv c) :
    (∀ v t, TTLCache.Get c now key = some (v, t) →
      t = weakETag v ∧ now ≤ itemExpiry c key now)
    ∧ (∀ val, EtagInv (TTLCache.Set c now key val).2) := by
  constructor
  · intro v t hget
    unfold TTLCache.Get at hget
    cases hlk : assocLookup c.store key with
    | none => rw [hlk] at hget; simp at hget
    | some it =>
      rw [hlk] at hget
      change (if now > it.expiresAt then (none : Option (List Nat × String))
        else some (it.val, it.etag)) = some (v, t) at hget
      by_cases hn : now > it.expiresAt
      · rw [if_pos hn] at hget; exact absurd hget (by simp)
      · rw [if_neg hn] at hget
        have hpair := Option.some.inj hget
        have hv : it.val = v := congrArg Prod.fst hpair
        have ht : it.etag = t := congrArg Prod.snd hpair
        constructor
        · unfold assocLookup at hlk
          cases hfind : c.store.find? (fun kv => kv.1 = key) with
          | none => rw [hfind] at hlk; exact absurd hlk (by simp)
          | some kv =>
            rw [hfind] at hlk
            have hkv : kv.2 = it := by simpa using hlk
            have hmem := List.mem_of_find?_eq_some hfind
            have hk := hinv kv hmem
            rw [hkv, hv, ht] at hk
            exact hk
        · unfold itemExpiry
          rw [hlk]
          simp
          omega
  · intro val kv hkv
    simp only [TTLCache.Set] at hkv
    rcases mem_assocSet hkv with heq | hm
    · rw [heq]
    · have hmem : kv ∈ c.store := by
        split at hm
        · split at hm
          · exact mem_assocDelete hm
          · exact hm
        · exact hm
      exact hinv kv hmem

/-- Witness for C8 (amended) at the concrete cache c8w and now = 80. -/
theorem c8_cache_etag_invariant_witness :
    EtagInv c8w
    ∧ (weakETag [1] = weakETag [1] ∧ (80 : Int) ≤ itemExpiry c8w "k" 80)
    ∧ EtagInv (TTLCache.Set c8w 80 "k2" [2]).2 :=
  ⟨by unfold EtagInv; decide,
    (c8_cache_etag_invariant c8w 80 "k" (by unfold EtagInv; decide)).1 [1]
      (weakETag [1]) (by decide),
    (c8_cache_etag_invariant c8w 80 "k2" (by unfold EtagInv; decide)).2 [2]⟩
